import Mathlib

/-!
Verification of the decision engine in dhritibr/Autonomous-Vehicles
(src/detector.py, src/main.py), as a shallow embedding in Lean 4.

Conventions of the embedding:
* Python floats are modelled by exact rationals.
* The external YOLO detector is an oracle: each frame is represented by
  the list of detections the detector returns for it (class id and box
  coordinates); pixel rendering (plot, HUD drawing, JPEG encoding) is
  out of scope and dropped.
* The string actions "GO" / "SLOW DOWN" / "STOP" become an inductive
  type; the ambient-status string, which is either one of the actions or
  the sentinel "--", becomes an Option Action with none as the sentinel.
* Python set iteration order over action strings is hash-dependent and
  not fixed across runs, so the consensus query is parameterised by the
  enumeration order of the set; an order is admissible when it lists
  exactly the distinct elements of the buffer.
* Exceptions (ZeroDivisionError) are modelled with Except; cv2 handles
  become booleans recording open/ released state, with a ghost counter
  of release() calls on the webcam handle.
-/

namespace AV

/-- The three driving actions produced by the risk logic of
detector.py (strings "GO", "SLOW DOWN", "STOP" in the source). -/
inductive Action
  | GO
  | SLOW_DOWN
  | STOP
deriving DecidableEq, Fintype

/-- One detection returned by the external detector for a frame:
integer class id and the xyxy box corners (detector.py lines 36-39). -/
structure Det where
  cls : Int
  x1 : ℚ
  y1 : ℚ
  x2 : ℚ
  y2 : ℚ
deriving DecidableEq

/-- VULNERABLE_CLASSES from AutonomousDecisionSystem.__init__ (line 11). -/
def VULNERABLE_CLASSES : List Int := [0, 1]

/-- RISK_THRESHOLD_STOP from __init__ (line 13). -/
def RISK_THRESHOLD_STOP : ℚ := 3.5

/-- RISK_THRESHOLD_SLOW from __init__ (line 14). -/
def RISK_THRESHOLD_SLOW : ℚ := 1.2

/-- The risk loop of analyze_frame (detector.py lines 31-41): one pass
over the boxes accumulating (max_h_norm, vulnerable_count), starting
from (0.0, 0). -/
def analyzeLoop (height : ℚ) (dets : List Det) : ℚ × ℕ :=
  dets.foldl
    (fun acc d =>
      let vc := if d.cls ∈ VULNERABLE_CLASSES then acc.2 + 1 else acc.2
      let h_norm := (d.y2 - d.y1) / height
      (max acc.1 h_norm, vc))
    (0, 0)

/-- analyze_frame's decision part (detector.py lines 43-47): the risk
score and the thresholded action for one frame's detections. -/
def analyze_frame (dets : List Det) (height : ℚ) : ℚ × Action :=
  let mv := analyzeLoop height dets
  let risk_score := mv.1 * 5.0 + (mv.2 : ℚ) * 2.0
  let action :=
    if risk_score > RISK_THRESHOLD_STOP then Action.STOP
    else if risk_score > RISK_THRESHOLD_SLOW then Action.SLOW_DOWN
    else Action.GO
  (risk_score, action)

/-- deque(maxlen=10).append (detector.py lines 15 and 90): append on the
right, evicting from the left past capacity 10. -/
def pushBuf (buf : List Action) (a : Action) : List Action :=
  let b := buf ++ [a]
  if b.length > 10 then b.drop (b.length - 10) else b

/-- Python max(iter, key=fun a => count a buf): first element of the
iteration attaining the maximal count wins (later elements replace the
champion only on a strictly greater key). none on an empty iteration. -/
def pyMaxByCount (buf : List Action) : List Action → Option Action
  | [] => none
  | x :: xs =>
      some (xs.foldl
        (fun best a => if buf.count a > buf.count best then a else best) x)

/-- max(set(buf), key=buf.count) (detector.py line 91), with the
hash-dependent iteration order of set(buf) supplied as a parameter. -/
def consensusPy (order : List Action) (buf : List Action) : Option Action :=
  pyMaxByCount buf order

/-- order is an admissible iteration order of set(buf): it enumerates
each distinct element of buf exactly once. -/
def isSetOrder (order buf : List Action) : Prop :=
  order.Nodup ∧ ∀ a : Action, a ∈ order ↔ a ∈ buf

instance (order buf : List Action) : Decidable (isSetOrder order buf) := by
  unfold isSetOrder
  infer_instance

/-- A concrete admissible set order (severity order restricted to the
buffer), used to instantiate runs at concrete inputs. -/
def canonicalOrder (buf : List Action) : List Action :=
  [Action.GO, Action.SLOW_DOWN, Action.STOP].filter (fun a => a ∈ buf)

/-- Modelled from the spec: the tie-break the specification asks for —
among the actions tied for the maximal occurrence count in the window,
the most-recently-inserted one (first such element scanning from the
newest end). -/
def mostRecentTieBreak (buf : List Action) : Option Action :=
  let maxCount := (buf.map (fun a => buf.count a)).foldr max 0
  buf.reverse.find? (fun a => buf.count a = maxCount)

-- Scratch sanity checks (spec examples), to be removed or kept as examples.
example : consensusPy (canonicalOrder (List.replicate 7 Action.GO ++ List.replicate 3 Action.STOP)) (List.replicate 7 Action.GO ++ List.replicate 3 Action.STOP) = some Action.GO := by decide

example : analyze_frame [] 480 = (0, Action.GO) := by
  norm_num [analyze_frame, analyzeLoop, RISK_THRESHOLD_STOP, RISK_THRESHOLD_SLOW]

example : (analyze_frame [⟨0, 0, 0, 10, 1⟩] 1).2 = Action.STOP := by
  norm_num [analyze_frame, analyzeLoop, VULNERABLE_CLASSES, RISK_THRESHOLD_STOP,
    RISK_THRESHOLD_SLOW]

/-- A cv2.VideoCapture handle for the webcam: records whether isOpened()
returned true for it. -/
structure Cap where
  opened : Bool
deriving DecidableEq

/-- The mutable fields of AutonomousDecisionSystem (detector.py lines
15-19), plus a ghost counter of release() calls on the webcam handle.
latest_action none stands for the sentinel string "--". -/
structure SysState where
  decision_buffer : List Action
  streaming_running : Bool
  latest_action : Option Action
  webcam_capture : Option Cap
  releases : ℕ
deriving DecidableEq

/-- process_image (detector.py lines 63-67): read the frame, analyze it
with the HUD (which sets latest_action, line 49), write the output,
return the instantaneous action. The frame is given by its detections
and pixel height. -/
def process_image (dets : List Det) (height : ℚ) (s : SysState) :
    SysState × Action :=
  let a := (analyze_frame dets height).2
  ({ s with latest_action := some a }, a)

/-- The /current-status endpoint (main.py line 138): reports
system.latest_action. -/
def get_current_status (s : SysState) : Option Action :=
  s.latest_action

/-- The progress_status dict of main.py (lines 66-71), single-writer
updated by process_video. -/
structure ProgressStatus where
  is_processing : Bool
  total_frames : ℕ
  current_frame : ℕ
  progress : ℕ
deriving DecidableEq

/-- Python exceptions that the modelled code can raise. -/
inductive PyErr
  | zeroDivision
deriving DecidableEq

/-- The local state of one process_video call: the system it mutates,
the optional progress dict, the loop locals (frame_count,
final_consensus_action) and whether the source and sink handles are
still open (no scoped release in the source: they are closed only by
the two release() calls after the loop). -/
structure VState where
  sys : SysState
  status : Option ProgressStatus
  frame_count : ℕ
  final_consensus_action : Action
  capOpen : Bool
  outOpen : Bool
deriving DecidableEq

/-- The body of one process_video loop iteration before the progress
update (detector.py lines 89-95): analyze the frame (which overwrites
latest_action, line 49), append the instantaneous action to the
decision buffer, recompute the running consensus, write the frame,
increment frame_count. -/
def videoStep (ord : List Action → List Action) (height : ℚ)
    (st : VState) (dets : List Det) : VState :=
  let a := (analyze_frame dets height).2
  let buf := pushBuf st.sys.decision_buffer a
  { st with
    sys := { st.sys with latest_action := some a, decision_buffer := buf },
    final_consensus_action := (consensusPy (ord buf) buf).getD
      st.final_consensus_action,
    frame_count := st.frame_count + 1 }

/-- The while loop of process_video (detector.py lines 85-98). Each
successfully read frame is its detection list; the list ends when
cap.read fails (break, not an exception). ord supplies the iteration
order of set(decision_buffer) for line 91. frame_count/total_frames is
Python float true division followed by int(), modelled as exact floor
division; it raises ZeroDivisionError when total_frames = 0 (the
current_frame entry is written before the division, the progress entry
is not). -/
def videoLoop (ord : List Action → List Action) (height : ℚ)
    (total_frames : ℕ) :
    List (List Det) → VState → VState × Except PyErr Unit
  | [], st => (st, Except.ok ())
  | dets :: rest, st =>
      let st' := videoStep ord height st dets
      match st.status with
      | none => videoLoop ord height total_frames rest st'
      | some ps =>
          if total_frames = 0 then
            ({ st' with
               status := some { ps with current_frame := st'.frame_count } },
             Except.error PyErr.zeroDivision)
          else
            videoLoop ord height total_frames rest
              { st' with
                status :=
                  some { ps with
                         current_frame := st'.frame_count,
                         progress := st'.frame_count * 100 / total_frames } }

/-- process_video (detector.py lines 69-102): store total_frames into
the progress dict, run the frame loop, and only when no exception was
raised release the source and the sink and return
final_consensus_action (initialized "GO", line 81). capOpens models
cap.isOpened() on the freshly opened source; when false the loop body
never runs. An exception propagates with both handles still open. -/
def process_video (ord : List Action → List Action) (height : ℚ)
    (capOpens : Bool) (total_frames : ℕ) (frames : List (List Det))
    (s : SysState) (status0 : Option ProgressStatus) :
    VState × Except PyErr Action :=
  let status1 := status0.map (fun ps => { ps with total_frames := total_frames })
  let st0 : VState :=
    { sys := s, status := status1, frame_count := 0,
      final_consensus_action := Action.GO, capOpen := capOpens, outOpen := true }
  let r := if capOpens then videoLoop ord height total_frames frames st0
           else (st0, Except.ok ())
  match r with
  | (st, Except.ok _) =>
      ({ st with capOpen := false, outOpen := false },
       Except.ok st.final_consensus_action)
  | (st, Except.error e) => (st, Except.error e)

/-- One scheduled iteration of the generate_frames loop: whether an
external stop request flipped streaming_running to false before the
while check, whether self.webcam_capture.read() succeeds, the frame's
detections, and whether the consumer asks for another frame after this
yield (false models the consumer abandoning the generator, which runs
the finally block via GeneratorExit). -/
structure ReadStep where
  extStop : Bool
  readOk : Bool
  dets : List Det
  consumerContinues : Bool
deriving DecidableEq

/-- The finally block of generate_frames (detector.py lines 125-130):
release and clear the capture if still present, clear the running flag,
reset latest_action to the sentinel. -/
def runFinally (s : SysState) : SysState :=
  let s := match s.webcam_capture with
    | some _ => { s with webcam_capture := none, releases := s.releases + 1 }
    | none => s
  { s with streaming_running := false, latest_action := none }

/-- The while loop of generate_frames (detector.py lines 116-124),
returning the trace of states observable at its suspension points
(after each latest_action update) followed by the state after the
finally block, together with the number of frames yielded. An exhausted
schedule ends the loop like an observed-false flag. -/
def genLoop (height : ℚ) : List ReadStep → SysState → List SysState × ℕ
  | [], s => ([runFinally s], 0)
  | step :: rest, s =>
      let s := if step.extStop then { s with streaming_running := false } else s
      if s.streaming_running = false then ([runFinally s], 0)
      else if step.readOk = false then ([runFinally s], 0)
      else
        let a := (analyze_frame step.dets height).2
        let s := { s with latest_action := some a }
        if step.consumerContinues then
          let tr := genLoop height rest s
          (s :: tr.1, tr.2 + 1)
        else ([s, runFinally s], 1)

/-- generate_frames (detector.py lines 104-130): set streaming_running
to true, open the webcam, and on open failure clear the flag and the
handle (without calling release and without touching latest_action) and
return; otherwise run the frame loop under the try/finally. Returns the
trace of observable states (the first two entries are the states after
line 105 and after lines 106-108) and the yield count. -/
def generate_frames (s0 : SysState) (openOk : Bool) (height : ℚ)
    (steps : List ReadStep) : List SysState × ℕ :=
  let s1 := { s0 with streaming_running := true }
  let s2 := { s1 with webcam_capture := some { opened := openOk } }
  if openOk = false then
    ([s1, s2, { s2 with streaming_running := false, webcam_capture := none }], 0)
  else
    let tr := genLoop height steps s2
    (s1 :: s2 :: tr.1, tr.2)

/-- The state in which a generate_frames run terminates. -/
def finalState (s0 : SysState) (openOk : Bool) (height : ℚ)
    (steps : List ReadStep) : SysState :=
  (generate_frames s0 openOk height steps).1.getLastD s0

/-- stop_streaming (detector.py lines 132-137): clear the flag, release
and clear the capture if present, reset latest_action to the
sentinel. -/
def stop_streaming (s : SysState) : SysState :=
  let s := { s with streaming_running := false }
  let s := match s.webcam_capture with
    | some _ => { s with webcam_capture := none, releases := s.releases + 1 }
    | none => s
  { s with latest_action := none }

/-- Stated in the spec's words: the number of detections whose class is
in the vulnerable set. -/
def specVulnerableCount (dets : List Det) : ℕ :=
  (dets.filter (fun d => d.cls ∈ VULNERABLE_CLASSES)).length

/-- Stated in the spec's words: the maximum of (y2 - y1)/height over
the detections, and 0 if there are none. -/
def specMaxHNorm (dets : List Det) (height : ℚ) : ℚ :=
  match dets.map (fun d => (d.y2 - d.y1) / height) with
  | [] => 0
  | x :: xs => xs.foldl max x

/-- Stated in the spec's words: the risk weighting. -/
def specRisk (dets : List Det) (height : ℚ) : ℚ :=
  specMaxHNorm dets height * 5.0 + (specVulnerableCount dets : ℚ) * 2.0

/-- Stated in the spec's words: the threshold policy with defaults
STOP = 3.5 and SLOW = 1.2. -/
def specThreshold (risk : ℚ) : Action :=
  if risk > 3.5 then Action.STOP
  else if risk > 1.2 then Action.SLOW_DOWN
  else Action.GO

lemma analyzeLoop_decomp (height : ℚ) (dets : List Det) :
    analyzeLoop height dets =
      ((dets.map (fun d => (d.y2 - d.y1) / height)).foldl max 0,
       dets.countP (fun d => d.cls ∈ VULNERABLE_CLASSES)) := by
  suffices h : ∀ (l : List Det) (m : ℚ) (v : ℕ),
      l.foldl
        (fun acc d =>
          let vc := if d.cls ∈ VULNERABLE_CLASSES then acc.2 + 1 else acc.2
          let h_norm := (d.y2 - d.y1) / height
          (max acc.1 h_norm, vc))
        (m, v) =
      ((l.map (fun d => (d.y2 - d.y1) / height)).foldl max m,
       v + l.countP (fun d => d.cls ∈ VULNERABLE_CLASSES)) by
    simpa [analyzeLoop] using h dets 0 0
  intro l
  induction l with
  | nil => simp
  | cons d ds ih =>
      intro m v
      by_cases hd : d.cls ∈ VULNERABLE_CLASSES <;>
        simp [List.countP_cons, hd, ih, Nat.add_assoc, Nat.add_comm]

lemma foldl_max_shift (xs : List ℚ) (x : ℚ) (hx : 0 ≤ x) :
    (x :: xs).foldl max 0 = xs.foldl max x := by
  simp [List.foldl_cons, max_eq_right hx]

lemma analyzeLoop_fst_eq_specMaxHNorm (height : ℚ) (dets : List Det)
    (hpos : 0 < height) (hwf : ∀ d ∈ dets, d.y1 ≤ d.y2) :
    (analyzeLoop height dets).1 = specMaxHNorm dets height := by
  rw [analyzeLoop_decomp]
  cases dets with
  | nil => simp [specMaxHNorm]
  | cons d ds =>
      have hx : 0 ≤ (d.y2 - d.y1) / height := by
        apply div_nonneg _ (le_of_lt hpos)
        have := hwf d (by simp)
        linarith
      simp only [specMaxHNorm, List.map_cons]
      exact foldl_max_shift _ _ hx

lemma analyzeLoop_snd_eq_specVulnerableCount (height : ℚ) (dets : List Det) :
    (analyzeLoop height dets).2 = specVulnerableCount dets := by
  rw [analyzeLoop_decomp, specVulnerableCount, List.countP_eq_length_filter]

/-- Claim C3: for every list of detections and frame height > 0 (with
well-formed boxes, y1 ≤ y2, per the data model), analyze_frame computes
risk = max_h_norm * 5.0 + vulnerable_count * 2.0 with max_h_norm the
maximum of (y2 - y1)/height over the detections (0 if none) and
vulnerable_count the number of detections of vulnerable class, and maps
it through the 3.5 / 1.2 thresholds; an empty detection set yields risk
0 and action GO. -/
theorem analyze_frame_risk_formula (dets : List Det) (height : ℚ)
    (hpos : 0 < height) (hwf : ∀ d ∈ dets, d.y1 ≤ d.y2) :
    analyze_frame dets height =
      (specRisk dets height, specThreshold (specRisk dets height)) ∧
    analyze_frame [] height = (0, Action.GO) := by
  constructor
  · have h1 := analyzeLoop_fst_eq_specMaxHNorm height dets hpos hwf
    have h2 := analyzeLoop_snd_eq_specVulnerableCount height dets
    simp only [analyze_frame, specThreshold, specRisk, h1, h2,
      RISK_THRESHOLD_STOP, RISK_THRESHOLD_SLOW]
  · simp [analyze_frame, analyzeLoop, RISK_THRESHOLD_STOP, RISK_THRESHOLD_SLOW]
    norm_num

/-- Witness for C3 at a concrete input: one pedestrian detection whose
box spans half of a height-1 frame. -/
theorem analyze_frame_risk_formula_witness :
    (0 < (1 : ℚ) ∧ ∀ d ∈ [(⟨0, 0, 0, 1, 1⟩ : Det)], d.y1 ≤ d.y2) ∧
    analyze_frame [(⟨0, 0, 0, 1, 1⟩ : Det)] 1 =
      (specRisk [(⟨0, 0, 0, 1, 1⟩ : Det)] 1,
       specThreshold (specRisk [(⟨0, 0, 0, 1, 1⟩ : Det)] 1)) := by
  refine ⟨⟨one_pos, ?_⟩, ?_⟩
  · intro d hd
    simp at hd
    simp [hd]
  · exact (analyze_frame_risk_formula [(⟨0, 0, 0, 1, 1⟩ : Det)] 1 one_pos
      (by intro d hd; simp at hd; simp [hd])).1

lemma analyze_frame_fst (dets : List Det) (height : ℚ) :
    (analyze_frame dets height).1 =
      (analyzeLoop height dets).1 * 5.0 + ((analyzeLoop height dets).2 : ℚ) * 2.0 :=
  rfl

lemma foldl_max_le_foldl_max {l l' : List ℚ}
    (h : List.Forall₂ (· ≤ ·) l l') :
    ∀ a b : ℚ, a ≤ b → l.foldl max a ≤ l'.foldl max b := by
  induction h with
  | nil => intro a b hab; simpa using hab
  | cons hxy _ ih => intro a b hab; exact ih _ _ (max_le_max hab hxy)

lemma forall2_le_set (l : List ℚ) :
    ∀ (i : ℕ) (x y : ℚ), l.get? i = some x → x ≤ y →
      List.Forall₂ (· ≤ ·) l (l.set i y) := by
  induction l with
  | nil => intro i x y h; simp at h
  | cons z zs ih =>
      intro i x y h hxy
      cases i with
      | zero =>
          simp only [List.get?_cons_zero, Option.some.injEq] at h
          subst h
          exact List.Forall₂.cons hxy
            (List.forall₂_same.mpr (fun u _ => le_refl u))
      | succ j =>
          simp only [List.get?_cons_succ] at h
          simpa using List.Forall₂.cons (le_refl z) (ih j x y h hxy)

lemma countP_set_eq (p : Det → Bool) (l : List Det) :
    ∀ (i : ℕ) (d d' : Det), l.get? i = some d → p d' = p d →
      (l.set i d').countP p = l.countP p := by
  induction l with
  | nil => intro i d d' h; simp at h
  | cons z zs ih =>
      intro i d d' h hp
      cases i with
      | zero =>
          simp only [List.get?_cons_zero, Option.some.injEq] at h
          subst h
          simp [List.countP_cons, hp]
      | succ j =>
          simp only [List.get?_cons_succ] at h
          simp [List.countP_cons, ih j d d' h hp]

/-- Claim C8: with height > 0, replacing one detection by one of the
same class with a taller box never decreases the risk score, and the
score is non-decreasing in the number of vulnerable-class detections
(appending a vulnerable detection raises it by at least its 2.0
weight). -/
theorem risk_monotone :
    (∀ (dets : List Det) (i : ℕ) (d d' : Det) (height : ℚ),
        0 < height → dets.get? i = some d → d'.cls = d.cls →
        d.y2 - d.y1 ≤ d'.y2 - d'.y1 →
        (analyze_frame dets height).1 ≤ (analyze_frame (dets.set i d') height).1) ∧
    (∀ (dets : List Det) (d : Det) (height : ℚ),
        0 < height → d.cls ∈ VULNERABLE_CLASSES →
        (analyze_frame dets height).1 + 2 ≤
          (analyze_frame (dets ++ [d]) height).1) := by
  constructor
  · intro dets i d d' height hpos hget hcls hdiff
    rw [analyze_frame_fst, analyze_frame_fst, analyzeLoop_decomp, analyzeLoop_decomp]
    have hf : (d.y2 - d.y1) / height ≤ (d'.y2 - d'.y1) / height :=
      (div_le_div_iff_of_pos_right hpos).mpr hdiff
    have hmap : (dets.set i d').map (fun d => (d.y2 - d.y1) / height) =
        ((dets.map (fun d => (d.y2 - d.y1) / height)).set i
          ((d'.y2 - d'.y1) / height)) := by
      rw [List.map_set]
    have hget' : (dets.map (fun d => (d.y2 - d.y1) / height)).get? i =
        some ((d.y2 - d.y1) / height) := by
      rw [List.get?_map, hget]; rfl
    have hmax : (dets.map (fun d => (d.y2 - d.y1) / height)).foldl max 0 ≤
        ((dets.set i d').map (fun d => (d.y2 - d.y1) / height)).foldl max 0 := by
      rw [hmap]
      exact foldl_max_le_foldl_max
        (forall2_le_set _ i _ _ hget' hf) 0 0 (le_refl 0)
    have hcount : (dets.set i d').countP (fun d => d.cls ∈ VULNERABLE_CLASSES) =
        dets.countP (fun d => d.cls ∈ VULNERABLE_CLASSES) :=
      countP_set_eq _ dets i d d' hget (by simp [hcls])
    rw [hcount]
    have h5 : (dets.map (fun d => (d.y2 - d.y1) / height)).foldl max 0 * 5.0 ≤
        ((dets.set i d').map (fun d => (d.y2 - d.y1) / height)).foldl max 0 * 5.0 := by
      nlinarith
    linarith
  · intro dets d height _ hd
    rw [analyze_frame_fst, analyze_frame_fst, analyzeLoop_decomp, analyzeLoop_decomp]
    have hmax : (dets.map (fun d => (d.y2 - d.y1) / height)).foldl max 0 ≤
        ((dets ++ [d]).map (fun d => (d.y2 - d.y1) / height)).foldl max 0 := by
      rw [List.map_append, List.foldl_append]
      simp only [List.map_cons, List.map_nil, List.foldl_cons, List.foldl_nil]
      exact le_max_left _ _
    have hcount : (dets ++ [d]).countP (fun d => d.cls ∈ VULNERABLE_CLASSES) =
        dets.countP (fun d => d.cls ∈ VULNERABLE_CLASSES) + 1 := by
      simp [List.countP_append, List.countP_cons, hd]
    rw [hcount]
    push_cast
    nlinarith

/-- A pedestrian-class detection whose box spans a height-1 frame. -/
def dPed : Det := ⟨0, 0, 0, 1, 1⟩

/-- A car-class (non-vulnerable) detection with the same box. -/
def dCar : Det := ⟨2, 0, 0, 1, 1⟩

/-- Witness for C8 at concrete inputs. -/
theorem risk_monotone_witness :
    ((0 : ℚ) < 1 ∧ [dCar].get? 0 = some dCar ∧ dCar.cls = dCar.cls ∧
      dCar.y2 - dCar.y1 ≤ dCar.y2 - dCar.y1 ∧ dPed.cls ∈ VULNERABLE_CLASSES) ∧
    (analyze_frame [dCar] 1).1 ≤ (analyze_frame ([dCar].set 0 dCar) 1).1 ∧
    (analyze_frame [] 1).1 + 2 ≤ (analyze_frame ([] ++ [dPed]) 1).1 := by
  refine ⟨⟨one_pos, rfl, rfl, le_refl _, by decide⟩, ?_, ?_⟩
  · exact risk_monotone.1 [dCar] 0 dCar dCar 1 one_pos rfl rfl (le_refl _)
  · exact risk_monotone.2 [] dPed 1 one_pos (by decide)

/-- The capacity-10 window of the spec's tie example:
[GO]*4 + [STOP]*4 + [SLOW_DOWN]*2. -/
def bufC1 : List Action :=
  [Action.GO, Action.GO, Action.GO, Action.GO,
   Action.STOP, Action.STOP, Action.STOP, Action.STOP,
   Action.SLOW_DOWN, Action.SLOW_DOWN]

/-- Counterexample to claim C1: on the spec's own tie example there is
an admissible iteration order of set(buffer) — hash-dependent in the
source — under which max(set(buf), key=buf.count) returns GO, while the
most-recently-inserted action among the tied maxima is STOP. The
consensus is therefore decided by set iteration order, not by
recency. -/
theorem consensus_tie_not_most_recent :
    isSetOrder [Action.GO, Action.STOP, Action.SLOW_DOWN] bufC1 ∧
    consensusPy [Action.GO, Action.STOP, Action.SLOW_DOWN] bufC1 =
      some Action.GO ∧
    mostRecentTieBreak bufC1 = some Action.STOP ∧
    Action.GO ≠ Action.STOP := by decide

lemma pyFold_count_ge (buf : List Action) :
    ∀ (xs : List Action) (x : Action),
      buf.count x ≤ buf.count
        (xs.foldl (fun best a => if buf.count a > buf.count best then a else best) x) ∧
      ∀ a ∈ xs, buf.count a ≤ buf.count
        (xs.foldl (fun best a => if buf.count a > buf.count best then a else best) x) := by
  intro xs
  induction xs with
  | nil => intro x; simp
  | cons y ys ih =>
      intro x
      have hpick : buf.count x ≤
          buf.count (if buf.count y > buf.count x then y else x) ∧
          buf.count y ≤
          buf.count (if buf.count y > buf.count x then y else x) := by
        by_cases h : buf.count y > buf.count x <;> simp [h] <;> omega
      refine ⟨?_, ?_⟩
      · exact le_trans hpick.1 (ih _).1
      · intro a ha
        rcases List.mem_cons.mp ha with rfl | ha'
        · exact le_trans hpick.2 (ih _).1
        · exact (ih _).2 a ha'

lemma pyFold_mem (buf : List Action) :
    ∀ (xs : List Action) (x : Action),
      (xs.foldl (fun best a => if buf.count a > buf.count best then a else best) x) = x ∨
      (xs.foldl (fun best a => if buf.count a > buf.count best then a else best) x) ∈ xs := by
  intro xs
  induction xs with
  | nil => intro x; simp
  | cons y ys ih =>
      intro x
      simp only [List.foldl_cons]
      rcases ih (if buf.count y > buf.count x then y else x) with h | h
      · rw [h]
        by_cases hc : buf.count y > buf.count x
        · right; simp [hc]
        · left; simp [hc]
      · right; exact List.mem_cons_of_mem _ h

/-- Claim C1 amended: on a non-empty window the consensus query returns
an action that attains the maximal occurrence count; which of the tied
maxima is returned is decided by the iteration order of set(buffer)
(hash-dependent), not by most-recent insertion. -/
theorem consensus_returns_max_count (buf order : List Action)
    (hord : isSetOrder order buf) (hne : buf ≠ []) :
    ∃ r, consensusPy order buf = some r ∧ r ∈ buf ∧
      ∀ a ∈ buf, buf.count a ≤ buf.count r := by
  obtain ⟨b, rest, rfl⟩ := List.exists_cons_of_ne_nil hne
  have hb : b ∈ order := (hord.2 b).mpr (List.mem_cons_self b rest)
  obtain ⟨x, xs, rfl⟩ :=
    List.exists_cons_of_ne_nil (List.ne_nil_of_mem hb)
  refine ⟨(xs.foldl
      (fun best a =>
        if (b :: rest).count a > (b :: rest).count best then a else best) x),
    rfl, ?_, ?_⟩
  · rcases pyFold_mem (b :: rest) xs x with h | h
    · rw [h]; exact (hord.2 x).mp (List.mem_cons_self x xs)
    · exact (hord.2 _).mp (List.mem_cons_of_mem _ h)
  · intro a ha
    rcases List.mem_cons.mp ((hord.2 a).mpr ha) with rfl | h
    · exact (pyFold_count_ge (b :: rest) xs a).1
    · exact (pyFold_count_ge (b :: rest) xs x).2 a h

/-- Witness for the amended C1 on a concrete window. -/
theorem consensus_returns_max_count_witness :
    (isSetOrder (canonicalOrder [Action.GO, Action.GO, Action.STOP])
        [Action.GO, Action.GO, Action.STOP] ∧
      [Action.GO, Action.GO, Action.STOP] ≠ ([] : List Action)) ∧
    ∃ r, consensusPy (canonicalOrder [Action.GO, Action.GO, Action.STOP])
        [Action.GO, Action.GO, Action.STOP] = some r ∧
      r ∈ [Action.GO, Action.GO, Action.STOP] ∧
      ∀ a ∈ [Action.GO, Action.GO, Action.STOP],
        [Action.GO, Action.GO, Action.STOP].count a ≤
          [Action.GO, Action.GO, Action.STOP].count r :=
  ⟨⟨by decide, by decide⟩,
   consensus_returns_max_count _ _ (by decide) (by decide)⟩

/-- Claim C9: stop_streaming is total and idempotent: after it returns
the flag is false, the handle is cleared, latest_action is the
sentinel; it releases the handle exactly when one was present; and
running it again changes nothing. -/
theorem stop_streaming_idempotent_total (s : SysState) :
    (stop_streaming s).streaming_running = false ∧
    (stop_streaming s).webcam_capture = none ∧
    (stop_streaming s).latest_action = none ∧
    stop_streaming (stop_streaming s) = stop_streaming s ∧
    (stop_streaming s).releases =
      s.releases + (if s.webcam_capture.isSome then 1 else 0) := by
  cases h : s.webcam_capture <;> simp [stop_streaming, h]

lemma runFinally_fields (s : SysState) :
    (runFinally s).streaming_running = false ∧
    (runFinally s).webcam_capture = none ∧
    (runFinally s).latest_action = none := by
  cases h : s.webcam_capture <;> simp [runFinally, h]

lemma genLoop_last (height : ℚ) :
    ∀ (steps : List ReadStep) (s d : SysState),
      (((genLoop height steps s).1.getLastD d).streaming_running = false ∧
       ((genLoop height steps s).1.getLastD d).webcam_capture = none ∧
       ((genLoop height steps s).1.getLastD d).latest_action = none) := by
  intro steps
  induction steps with
  | nil => intro s d; exact runFinally_fields s
  | cons step rest ih =>
      intro s d
      simp only [genLoop]
      split_ifs
      all_goals
        first
        | (rw [List.getLastD_cons]; exact ih _ _)
        | exact runFinally_fields _

/-- Claim C5 amended: on every termination path of a session whose
source opened successfully — external stop, read failure, schedule end,
or the consumer abandoning the sequence — the final state has the
capture released and cleared, the flag down and latest_action reset to
the sentinel; but when the source fails to open, the handle is merely
cleared (release() is not called — nothing was opened) and
latest_action keeps its previous value instead of being reset. -/
theorem generate_frames_teardown (s0 : SysState) (height : ℚ)
    (steps : List ReadStep) :
    ((finalState s0 true height steps).streaming_running = false ∧
     (finalState s0 true height steps).webcam_capture = none ∧
     (finalState s0 true height steps).latest_action = none) ∧
    ((finalState s0 false height steps).streaming_running = false ∧
     (finalState s0 false height steps).webcam_capture = none ∧
     (finalState s0 false height steps).latest_action = s0.latest_action ∧
     (finalState s0 false height steps).releases = s0.releases) := by
  constructor
  · have hfs : finalState s0 true height steps =
        ((genLoop height steps
            { s0 with streaming_running := true,
                      webcam_capture := some { opened := true } }).1).getLastD
          { s0 with streaming_running := true,
                    webcam_capture := some { opened := true } } := by
      simp only [finalState, generate_frames]
      rw [if_neg (show ¬(true = false) by decide)]
      rw [List.getLastD_cons, List.getLastD_cons]
    rw [hfs]
    exact genLoop_last height steps _ _
  · simp [finalState, generate_frames, List.getLastD_cons]

/-- Counterexample to claim C5: a session whose source fails to open,
started while the ambient action still reads STOP from earlier
activity, terminates with latest_action still STOP — not reset to the
sentinel — and with no release() call on the source handle. -/
theorem open_fail_keeps_latest_action :
    (finalState
        { decision_buffer := [], streaming_running := false,
          latest_action := some Action.STOP, webcam_capture := none,
          releases := 0 } false 480 []).latest_action = some Action.STOP ∧
    some Action.STOP ≠ (none : Option Action) := by decide

/-- Counterexample to claim C6: even on a run where the source fails to
open, the very first observable state of generate_frames has
streaming_running = true while webcam_capture is still absent — the
flag is raised before the open is attempted, so it is transiently
observed true and is not "never set true". -/
theorem running_true_before_open :
    (generate_frames
        { decision_buffer := [], streaming_running := false,
          latest_action := none, webcam_capture := none, releases := 0 }
        false 480 []).1.head? =
      some { decision_buffer := [], streaming_running := true,
             latest_action := none, webcam_capture := none, releases := 0 } ∧
    (true ≠ false) := by decide

/-- Claim C6 amended: streaming_running is set true unconditionally at
the start of generate_frames, before the source open is attempted (the
first observable state has the flag up and no capture); when the open
fails, the session yields no frames and terminates with the flag back
at false. -/
theorem generate_frames_running_transient (s0 : SysState) (height : ℚ)
    (steps : List ReadStep) :
    (generate_frames s0 false height steps).1.head? =
      some { s0 with streaming_running := true } ∧
    ({ s0 with streaming_running := true } : SysState).webcam_capture =
      s0.webcam_capture ∧
    (generate_frames s0 false height steps).2 = 0 ∧
    (finalState s0 false height steps).streaming_running = false ∧
    (generate_frames s0 true height steps).1.head? =
      some { s0 with streaming_running := true } := by
  refine ⟨by simp [generate_frames], rfl, by simp [generate_frames], ?_,
    by simp [generate_frames]⟩
  simp [finalState, generate_frames]

lemma videoLoop_handles (ord : List Action → List Action) (height : ℚ)
    (tf : ℕ) :
    ∀ (frames : List (List Det)) (st : VState),
      (videoLoop ord height tf frames st).1.capOpen = st.capOpen ∧
      (videoLoop ord height tf frames st).1.outOpen = st.outOpen := by
  intro frames
  induction frames with
  | nil => intro st; exact ⟨rfl, rfl⟩
  | cons dets rest ih =>
      intro st
      simp only [videoLoop]
      rcases hst : st.status with _ | ps
      · exact ih (videoStep ord height st dets)
      · by_cases htf : tf = 0
        · simp [htf, videoStep]
        · simpa [htf] using ih _

lemma videoLoop_none (ord : List Action → List Action) (height : ℚ)
    (tf : ℕ) :
    ∀ (frames : List (List Det)) (st : VState), st.status = none →
      (videoLoop ord height tf frames st).2 = Except.ok () ∧
      (videoLoop ord height tf frames st).1.sys.decision_buffer =
        frames.foldl (fun b dets => pushBuf b ((analyze_frame dets height).2))
          st.sys.decision_buffer ∧
      (videoLoop ord height tf frames st).1.sys.latest_action =
        (match frames with
         | [] => st.sys.latest_action
         | f :: fs => some ((analyze_frame (fs.getLastD f) height).2)) := by
  intro frames
  induction frames with
  | nil => intro st hst; exact ⟨rfl, rfl, rfl⟩
  | cons f fs ih =>
      intro st hst
      simp only [videoLoop, hst]
      obtain ⟨h1, h2, h3⟩ := ih (videoStep ord height st f) hst
      refine ⟨h1, ?_, ?_⟩
      · rw [h2]
        rfl
      · rw [h3]
        cases fs with
        | nil => rfl
        | cons g gs => rw [List.getLastD_cons]

lemma process_video_none (ord : List Action → List Action) (height : ℚ)
    (tf : ℕ) (frames : List (List Det)) (s : SysState) :
    (process_video ord height true tf frames s none).1.sys =
      (videoLoop ord height tf frames
        { sys := s, status := none, frame_count := 0,
          final_consensus_action := Action.GO, capOpen := true,
          outOpen := true }).1.sys ∧
    (process_video ord height true tf frames s none).2 =
      Except.ok (videoLoop ord height tf frames
        { sys := s, status := none, frame_count := 0,
          final_consensus_action := Action.GO, capOpen := true,
          outOpen := true }).1.final_consensus_action := by
  have hok := (videoLoop_none ord height tf frames
    { sys := s, status := none, frame_count := 0,
      final_consensus_action := Action.GO, capOpen := true,
      outOpen := true } rfl).1
  simp only [process_video, Option.map_none', if_true]
  rcases hr : videoLoop ord height tf frames
      { sys := s, status := none, frame_count := 0,
        final_consensus_action := Action.GO, capOpen := true,
        outOpen := true } with ⟨st, res⟩
  rw [hr] at hok
  simp only at hok
  subst hok
  exact ⟨rfl, rfl⟩

/-- Claim C7 amended: process_video never resets the decision buffer:
it resumes from whatever the shared system's buffer already holds, so
after a run the buffer is the fold of the new video's actions over the
buffer left by previously processed media (the start state of a
subsequent call therefore still contains prior media's actions, up to
the 10-slot capacity). -/
theorem process_video_threads_buffer (ord : List Action → List Action)
    (height : ℚ) (tf : ℕ) (frames : List (List Det)) (s : SysState) :
    (process_video ord height true tf frames s none).1.sys.decision_buffer =
      frames.foldl (fun b dets => pushBuf b ((analyze_frame dets height).2))
        s.decision_buffer := by
  rw [(process_video_none ord height tf frames s).1]
  exact (videoLoop_none ord height tf frames _ rfl).2.1

/-- Claim C10: analyze_frame's ambient-status write is shared by the
batch jobs: after process_image the status query returns that image's
action, and after process_video on a non-empty frame list it returns
the last frame's instantaneous action — not the sentinel; batch jobs
never reset it. -/
theorem latest_action_overwritten_by_batch :
    (∀ (dets : List Det) (height : ℚ) (s : SysState),
        get_current_status (process_image dets height s).1 =
          some ((analyze_frame dets height).2)) ∧
    (∀ (ord : List Action → List Action) (height : ℚ) (tf : ℕ)
        (f : List Det) (fs : List (List Det)) (s : SysState),
        get_current_status
            (process_video ord height true tf (f :: fs) s none).1.sys =
          some ((analyze_frame (fs.getLastD f) height).2)) := by
  constructor
  · intro dets height s
    rfl
  · intro ord height tf f fs s
    show (process_video ord height true tf (f :: fs) s none).1.sys.latest_action
      = some ((analyze_frame (fs.getLastD f) height).2)
    rw [(process_video_none ord height tf (f :: fs) s).1]
    exact (videoLoop_none ord height tf (f :: fs) _ rfl).2.2

/-- A freshly constructed AutonomousDecisionSystem state (detector.py
lines 15-19). -/
def sFresh : SysState :=
  { decision_buffer := [], streaming_running := false, latest_action := none,
    webcam_capture := none, releases := 0 }

/-- The progress dict as main.py initializes it before a video job
(lines 66-71 and 99). -/
def ps0 : ProgressStatus :=
  { is_processing := true, total_frames := 0, current_frame := 0,
    progress := 0 }

/-- Claim C2: the code does not guard the progress update. On a source
reporting total_frames = 0 that still yields one readable frame, the
first per-frame progress update divides by zero and the call aborts
with ZeroDivisionError; progress is left at its initial 0 only because
the raising line never assigns it (current_frame has already been
written). -/
theorem progress_update_divzero_on_zero_total :
    (process_video canonicalOrder 480 true 0 [[]] sFresh (some ps0)).2 =
      Except.error PyErr.zeroDivision ∧
    ((process_video canonicalOrder 480 true 0 [[]] sFresh (some ps0)).1.status.map
        (fun ps => ps.progress)) = some 0 ∧
    ((process_video canonicalOrder 480 true 0 [[]] sFresh (some ps0)).1.status.map
        (fun ps => ps.current_frame)) = some 1 := by
  norm_num [process_video, videoLoop, videoStep, analyze_frame, analyzeLoop,
    pushBuf, consensusPy, pyMaxByCount, canonicalOrder, sFresh, ps0,
    RISK_THRESHOLD_STOP, RISK_THRESHOLD_SLOW]

/-- Counterexample to claim C4: on the run of C2's failing input the
ZeroDivisionError propagates out of process_video while both
cap.release() and out.release() are skipped — the source and the sink
are still open on this exit path. -/
theorem process_video_leaks_on_midloop_error :
    (process_video canonicalOrder 480 true 0 [[]] sFresh (some ps0)).1.capOpen =
      true ∧
    (process_video canonicalOrder 480 true 0 [[]] sFresh (some ps0)).1.outOpen =
      true ∧
    (process_video canonicalOrder 480 true 0 [[]] sFresh (some ps0)).2 =
      Except.error PyErr.zeroDivision := by
  norm_num [process_video, videoLoop, videoStep, analyze_frame, analyzeLoop,
    pushBuf, consensusPy, pyMaxByCount, canonicalOrder, sFresh, ps0,
    RISK_THRESHOLD_STOP, RISK_THRESHOLD_SLOW]

/-- Claim C4 amended: the source and the sink are both released on
every non-raising exit of process_video (source exhaustion or read
failure ends the loop with break, after which both release() calls
run, also when the source never opened); but when an exception is
raised mid-loop the error propagates with both handles still open. -/
theorem process_video_releases_on_ok (ord : List Action → List Action)
    (height : ℚ) (capOpens : Bool) (tf : ℕ) (frames : List (List Det))
    (s : SysState) (st0 : Option ProgressStatus) :
    match process_video ord height capOpens tf frames s st0 with
    | (st, Except.ok _) => st.capOpen = false ∧ st.outOpen = false
    | (st, Except.error _) => st.capOpen = capOpens ∧ st.outOpen = true := by
  cases capOpens with
  | false => simp [process_video]
  | true =>
      have hh := videoLoop_handles ord height tf frames
        { sys := s,
          status := st0.map (fun ps => { ps with total_frames := tf }),
          frame_count := 0, final_consensus_action := Action.GO,
          capOpen := true, outOpen := true }
      simp only [process_video, if_true]
      rcases hr : videoLoop ord height tf frames
          { sys := s,
            status := st0.map (fun ps => { ps with total_frames := tf }),
            frame_count := 0, final_consensus_action := Action.GO,
            capOpen := true, outOpen := true } with ⟨st, res⟩
      rw [hr] at hh
      cases res with
      | ok u => exact ⟨rfl, rfl⟩
      | error e => exact ⟨hh.1, hh.2⟩

/-- Counterexample to claim C7: main.py drives all uploads through one
module-level AutonomousDecisionSystem, and process_video never clears
decision_buffer. After processing a one-frame video of a close
pedestrian on a fresh system, the buffer — the state in which the next
process_video call starts — still holds that video's STOP, so the
next call does not start with an empty window. -/
theorem buffer_persists_across_videos :
    (process_video canonicalOrder 1 true 1 [[dPed]] sFresh
        none).1.sys.decision_buffer = [Action.STOP] ∧
    [Action.STOP] ≠ ([] : List Action) := by
  norm_num [process_video, videoLoop, videoStep, analyze_frame, analyzeLoop,
    pushBuf, consensusPy, pyMaxByCount, canonicalOrder, sFresh, dPed,
    VULNERABLE_CLASSES, RISK_THRESHOLD_STOP, RISK_THRESHOLD_SLOW]

end AV
